import Mathlib

/-!
Shallow embedding of the isongn persistence / spatial-query core.

`Isongn.World` embeds the Section Store (`src/world/world.go`): sections,
the 4-slot section cache with oldest-timestamp eviction, persistence, and
the shape/edge accessors.  `Isongn.Gfx` embeds the Occupancy Window and the
A* pathfinder (`src/gfx/path.go`; the coordinate transforms, collision
search and blocker queries come from the second `View` version in that
file, the one the pathfinder in the first part of the file works against).

Conventions of the embedding:
* Go `int` becomes `Int`; Go `/` and `%` become `Int.tdiv` / `Int.tmod`
  (Go division truncates toward zero).
* A Go array access with an out-of-range index panics; operations that can
  panic return `Option` results, `none` standing for the panic.
* `time.Now().Unix()` is modelled by a strictly monotone logical clock
  (`Loader.clock`), bumped on every `getSection` call.
* The filesystem is modelled as a map from section keys to file contents;
  gob/gzip (external Go standard-library collaborators) are modelled as an
  index-addressable stream: the fixed-size `[200][200][24]` and `[200][200]`
  arrays are flattened in row-major order.
* Pointer mutation of a cached `Section` is modelled by writing the updated
  section back into the cache slot it was found in.
-/

namespace Isongn

namespace World

def SECTION_SIZE : Int := 200

def SECTION_Z_SIZE : Int := 24

def VERSION : Nat := 1

/-- One section of the world: key `(X, Y)` plus the dense `[200][200][24]`
occupancy array and the `[200][200]` edge overlay (`world.go`, `Section`).
The arrays hold the raw `Position.Shape` integers (0 = empty). -/
structure Section where
  X : Int
  Y : Int
  position : Nat → Nat → Nat → Int
  edges : Nat → Nat → Int

/-- The persisted form of one section file: the version byte followed by the
gob-encoded volumetric array and edge array (`world.go`, `save`).  The two
gzip/gob streams are modelled as index-addressable flattenings. -/
structure FileData where
  version : Nat
  pos : Nat → Int
  edges : Nat → Int

/-- Row-major flattening of the `[200][200][24]` occupancy array, the
modelled gob encoding of `section.position`. -/
def encodePosition (f : Nat → Nat → Nat → Int) : Nat → Int :=
  fun n => f (n / 4800) ((n / 24) % 200) (n % 24)

/-- Row-major flattening of the `[200][200]` edge array, the modelled gob
encoding of `section.edges`. -/
def encodeEdges (f : Nat → Nat → Int) : Nat → Int :=
  fun n => f (n / 200) (n % 200)

/-- Reading the volumetric stream back into a `[200][200][24]` array. -/
def decodePosition (g : Nat → Int) : Nat → Nat → Nat → Int :=
  fun i j k => g (i * 4800 + j * 24 + k)

/-- Reading the edge stream back into a `[200][200]` array. -/
def decodeEdges (g : Nat → Int) : Nat → Nat → Int :=
  fun i j => g (i * 200 + j)

/-- Observer notifications fired by the Section Store (`WorldObserver`):
`SectionSave x y` and `SectionLoad x y`, in the order they are fired. -/
inductive Event where
  | save (x y : Int)
  | load (x y : Int)
  deriving DecidableEq, Repr

/-- The Section Store state (`Loader` plus its `SectionCache`): focal point
`(X, Y)`, the 4 cache slots with their last-access stamps, the logical
clock standing for `time.Now().Unix()`, and the on-disk map files.  Path
resolution (editor/runner mode, user/game directories) is abstracted to a
single key-value store keyed by section coordinates. -/
structure Loader where
  X : Int
  Y : Int
  cache : Fin 4 → Option Section
  times : Fin 4 → Nat
  clock : Nat
  disk : Int × Int → Option FileData

/-- `NewLoader`: focal point `(5000, 5000)`, empty cache
(`world.go`, `NewLoader` / `NewSectionCache`). -/
def NewLoader (disk : Int × Int → Option FileData) : Loader :=
  { X := 5000, Y := 5000, cache := fun _ => none, times := fun _ => 0,
    clock := 0, disk := disk }

/-- `MoveTo` (`world.go` lines 67-74): move the focal point when the target
is non-negative and differs from the current one; report whether it moved. -/
def MoveTo (ld : Loader) (x y : Int) : Bool × Loader :=
  if 0 ≤ x ∧ 0 ≤ y ∧ (ld.X ≠ x ∨ ld.Y ≠ y) then
    (true, { ld with X := x, Y := y })
  else
    (false, ld)

/-- The scan of `getSection`'s loop over the cache slots (the test
`cache[i] != nil && cache[i].X == sx && cache[i].Y == sy`): the first slot
holding a section keyed `(sx, sy)`, with that section. -/
def firstHit (cache : Fin 4 → Option Section) (sx sy : Int) :
    List (Fin 4) → Option (Fin 4 × Section)
  | [] => none
  | i :: rest =>
    match cache i with
    | some s => if s.X = sx ∧ s.Y = sy then some (i, s) else firstHit cache sx sy rest
    | none => firstHit cache sx sy rest

/-- The eviction choice of `getSection`: the slot with the smallest
timestamp, ties broken by the first index seen (the loop uses a strict
comparison). -/
def oldestIndex (times : Fin 4 → Nat) : Fin 4 :=
  (List.finRange 4).foldl (fun best i => if times i < times best then i else best) 0

/-- `load` (`world.go` lines 189-245): a missing file yields a fresh empty
section; a present file is decoded into the two arrays.  The version byte is
read but not interpreted. -/
def Loader.load (ld : Loader) (sx sy : Int) : Section :=
  match ld.disk (sx, sy) with
  | none =>
    { X := sx, Y := sy, position := fun _ _ _ => 0, edges := fun _ _ => 0 }
  | some f =>
    { X := sx, Y := sy, position := decodePosition f.pos, edges := decodeEdges f.edges }

/-- `save` (`world.go` lines 247-283): write the version byte and the two
encoded arrays to the section's file. -/
def Loader.save (ld : Loader) (s : Section) : Loader :=
  { ld with
    disk := fun k =>
      if k = (s.X, s.Y) then
        some { version := VERSION, pos := encodePosition s.position,
               edges := encodeEdges s.edges }
      else ld.disk k }

/-- Result of `getSection`: the section, the cache slot it lives in (the
modelled pointer into the cache), the updated store, and the observer
notifications fired, in order. -/
structure GS where
  sec : Section
  idx : Fin 4
  ld : Loader
  events : List Event

/-- `getSection` (`world.go` lines 139-175).  On a hit the slot's stamp is
refreshed.  On a miss the oldest slot is chosen; a resident victim is
notified (`SectionSave`) and persisted, then the requested section is
loaded (or default-constructed), placed, stamped, and its load notified. -/
def getSection (ld : Loader) (sx sy : Int) : GS :=
  match firstHit ld.cache sx sy (List.finRange 4) with
  | some (i, s) =>
    { sec := s, idx := i,
      ld := { ld with times := fun j => if j = i then ld.clock else ld.times j,
                      clock := ld.clock + 1 },
      events := [] }
  | none =>
    let j := oldestIndex ld.times
    let saved : Loader × List Event :=
      match ld.cache j with
      | some old => (ld.save old, [Event.save old.X old.Y])
      | none => (ld, [])
    let s := saved.1.load sx sy
    { sec := s, idx := j,
      ld := { saved.1 with
              cache := fun k => if k = j then some s else saved.1.cache k,
              times := fun k => if k = j then saved.1.clock else saved.1.times k,
              clock := saved.1.clock + 1 },
      events := saved.2 ++ [Event.load sx sy] }

/-- `getPosInSection` (`world.go` lines 126-137): section key by truncated
division, local cell by truncated modulo. -/
def getPosInSection (ld : Loader) (worldX worldY worldZ : Int) :
    GS × Int × Int × Int :=
  let sx := worldX.tdiv SECTION_SIZE
  let sy := worldY.tdiv SECTION_SIZE
  let gs := getSection ld sx sy
  (gs, worldX.tmod SECTION_SIZE, worldY.tmod SECTION_SIZE, worldZ)

/-- Writing the (pointer-)mutated section back into its cache slot. -/
def writeBack (ld : Loader) (i : Fin 4) (s : Section) : Loader :=
  { ld with cache := fun j => if j = i then some s else ld.cache j }

/-- Result of one public Section Store operation: the returned value
(`none` = the Go code panicked on an out-of-range index), the updated
store, and the notifications fired. -/
structure OpOut (α : Type) where
  res : Option α
  ld : Loader
  events : List Event

/-- The in-range test of a volumetric array access
(`section.position[atomX][atomY][atomZ]`). -/
def posInRange (ax ay az : Int) : Prop :=
  0 ≤ ax ∧ ax < 200 ∧ 0 ≤ ay ∧ ay < 200 ∧ 0 ≤ az ∧ az < 24

instance (ax ay az : Int) : Decidable (posInRange ax ay az) := by
  unfold posInRange; infer_instance

/-- The in-range test of an edge array access (`section.edges[atomX][atomY]`). -/
def edgeInRange (ax ay : Int) : Prop :=
  0 ≤ ax ∧ ax < 200 ∧ 0 ≤ ay ∧ ay < 200

instance (ax ay : Int) : Decidable (edgeInRange ax ay) := by
  unfold edgeInRange; infer_instance

/-- `SetShape` (`world.go` lines 95-99): store `shapeIndex + 1` and return
`true`. -/
def SetShape (ld : Loader) (x y z shapeIndex : Int) : OpOut Bool :=
  let r := getPosInSection ld x y z
  let gs := r.1
  let ax := r.2.1
  let ay := r.2.2.1
  let az := r.2.2.2
  if posInRange ax ay az then
    let s := { gs.sec with
               position := fun a b c =>
                 if a = ax.toNat ∧ b = ay.toNat ∧ c = az.toNat then shapeIndex + 1
                 else gs.sec.position a b c }
    { res := some true, ld := writeBack gs.ld gs.idx s, events := gs.events }
  else
    { res := none, ld := gs.ld, events := gs.events }

/-- `EraseShape` (`world.go` lines 101-109): zero the cell only when it is
non-empty, and report whether anything was removed. -/
def EraseShape (ld : Loader) (x y z : Int) : OpOut Bool :=
  let r := getPosInSection ld x y z
  let gs := r.1
  let ax := r.2.1
  let ay := r.2.2.1
  let az := r.2.2.2
  if posInRange ax ay az then
    let v := gs.sec.position ax.toNat ay.toNat az.toNat
    if 0 < v then
      let s := { gs.sec with
                 position := fun a b c =>
                   if a = ax.toNat ∧ b = ay.toNat ∧ c = az.toNat then 0
                   else gs.sec.position a b c }
      { res := some true, ld := writeBack gs.ld gs.idx s, events := gs.events }
    else
      { res := some false, ld := gs.ld, events := gs.events }
  else
    { res := none, ld := gs.ld, events := gs.events }

/-- `GetShape` (`world.go` lines 111-118): `(0, false)` on an empty cell,
otherwise `(stored - 1, true)`. -/
def GetShape (ld : Loader) (worldX worldY worldZ : Int) : OpOut (Int × Bool) :=
  let r := getPosInSection ld worldX worldY worldZ
  let gs := r.1
  let ax := r.2.1
  let ay := r.2.2.1
  let az := r.2.2.2
  if posInRange ax ay az then
    let v := gs.sec.position ax.toNat ay.toNat az.toNat
    if v = 0 then
      { res := some (0, false), ld := gs.ld, events := gs.events }
    else
      { res := some (v - 1, true), ld := gs.ld, events := gs.events }
  else
    { res := none, ld := gs.ld, events := gs.events }

/-- `ClearEdge` (`world.go` lines 76-79). -/
def ClearEdge (ld : Loader) (x y : Int) : OpOut Unit :=
  let r := getPosInSection ld x y 0
  let gs := r.1
  let ax := r.2.1
  let ay := r.2.2.1
  if edgeInRange ax ay then
    let s := { gs.sec with
               edges := fun a b =>
                 if a = ax.toNat ∧ b = ay.toNat then 0 else gs.sec.edges a b }
    { res := some (), ld := writeBack gs.ld gs.idx s, events := gs.events }
  else
    { res := none, ld := gs.ld, events := gs.events }

/-- `SetEdge` (`world.go` lines 81-84). -/
def SetEdge (ld : Loader) (x y shapeIndex : Int) : OpOut Unit :=
  let r := getPosInSection ld x y 0
  let gs := r.1
  let ax := r.2.1
  let ay := r.2.2.1
  if edgeInRange ax ay then
    let s := { gs.sec with
               edges := fun a b =>
                 if a = ax.toNat ∧ b = ay.toNat then shapeIndex + 1
                 else gs.sec.edges a b }
    { res := some (), ld := writeBack gs.ld gs.idx s, events := gs.events }
  else
    { res := none, ld := gs.ld, events := gs.events }

/-- `GetEdge` (`world.go` lines 86-93). -/
def GetEdge (ld : Loader) (x y : Int) : OpOut (Int × Bool) :=
  let r := getPosInSection ld x y 0
  let gs := r.1
  let ax := r.2.1
  let ay := r.2.2.1
  if edgeInRange ax ay then
    let v := gs.sec.edges ax.toNat ay.toNat
    if v = 0 then
      { res := some (0, false), ld := gs.ld, events := gs.events }
    else
      { res := some (v - 1, true), ld := gs.ld, events := gs.events }
  else
    { res := none, ld := gs.ld, events := gs.events }

/-- One public shape/edge operation against the Section Store, for stating
invariants over arbitrary operation sequences. -/
inductive WorldOp where
  | setShape (x y z i : Int)
  | eraseShape (x y z : Int)
  | getShape (x y z : Int)
  | setEdge (x y i : Int)
  | getEdge (x y : Int)
  | clearEdge (x y : Int)

/-- The store state after one operation. -/
def applyOp (ld : Loader) : WorldOp → Loader
  | .setShape x y z i => (SetShape ld x y z i).ld
  | .eraseShape x y z => (EraseShape ld x y z).ld
  | .getShape x y z => (GetShape ld x y z).ld
  | .setEdge x y i => (SetEdge ld x y i).ld
  | .getEdge x y => (GetEdge ld x y).ld
  | .clearEdge x y => (ClearEdge ld x y).ld

/-- The store state after a sequence of operations. -/
def applyOps (ld : Loader) (ops : List WorldOp) : Loader :=
  ops.foldl applyOp ld

/-- The keys of the sections resident in the cache. -/
def residentKeys (cache : Fin 4 → Option Section) : List (Int × Int) :=
  (List.finRange 4).filterMap (fun i => (cache i).map (fun s => (s.X, s.Y)))

/-- At most one resident section per distinct `(sectionX, sectionY)` key:
two slots holding sections with the same key are the same slot. -/
def ResidentDistinct (cache : Fin 4 → Option Section) : Prop :=
  ∀ i j si sj, cache i = some si → cache j = some sj →
    si.X = sj.X → si.Y = sj.Y → i = j

end World

namespace Gfx

def SIZE : Int := 96

def SEARCH_SIZE : Nat := 16

/-- A window cell identified by its view coordinates (an index into the
`[96][96][24]` `blockPos` array; Go compares these cells by pointer, the
embedding by coordinates). -/
structure Cell where
  x : Nat
  y : Nat
  z : Nat
  deriving DecidableEq, Repr, Inhabited

/-- Modelled from the spec: `BoundingBox` — anchor `(X, Y, Z)` plus extents
`(W, H, D)`, with point-containment and box-intersection tests and in-place
repositioning.  The repository file defining `BoundingBox` is not under
`src/`; only its callers are. -/
structure BoundingBox where
  X : Int
  Y : Int
  Z : Int
  W : Int
  H : Int
  D : Int
  deriving DecidableEq, Repr

/-- Modelled from the spec: repositioning a box, keeping its extents. -/
def BoundingBox.SetPos (b : BoundingBox) (x y z : Int) : BoundingBox :=
  { b with X := x, Y := y, Z := z }

/-- Modelled from the spec: axis-aligned box intersection (overlap on every
axis, extents reaching from the anchor toward larger coordinates). -/
def BoundingBox.intersect (a b : BoundingBox) : Bool :=
  decide (a.X < b.X + b.W ∧ b.X < a.X + a.W ∧
          a.Y < b.Y + b.H ∧ b.Y < a.Y + a.H ∧
          a.Z < b.Z + b.D ∧ b.Z < a.Z + a.D)

/-- The per-cell data of a `BlockPos` relevant to queries: the cached world
coordinates (set by `Load`), the backing position's `Block` value, and the
cell's bounding box. -/
structure CellData where
  worldX : Int
  worldY : Int
  worldZ : Int
  block : Nat
  box : BoundingBox
  deriving Repr

/-- The queryable `View` state: the focal point of its `Loader`, the
`blockPos` grid, and the external shape catalog entries the core consults
(`NoSupport` flags and the registered path-through shapes, both keyed by
shape index).  The fixed `[96][96][24]` array is modelled as a total
function on coordinates; a Go access outside the array bounds would panic,
and no embedded operation performs one except the step-up probe noted at
`tryMove`. -/
structure View where
  loaderX : Int
  loaderY : Int
  cells : Nat → Nat → Nat → CellData
  noSupport : Nat → Bool
  pathThroughShapes : Nat → Bool

/-- The pathfinding `ViewContext` (`path.go` lines 19-26). -/
structure Ctx where
  isFlying : Bool
  isPathing : Bool
  usePathThrough : Bool
  start : Cell
  endC : Cell
  startBox : BoundingBox
  endBox : BoundingBox

/-- `isValidViewPos` (`path.go` lines 1151-1153): X,Y in `[0,96)` and Z in
`[0,24)`. -/
def isValidViewPos (viewX viewY viewZ : Int) : Bool :=
  !(viewX < 0 || viewX ≥ 96 || viewY < 0 || viewY ≥ 96 || viewZ < 0 || viewZ ≥ 24)

/-- `toWorldPos` (`path.go` lines 1147-1149). -/
def toWorldPos (v : View) (viewX viewY viewZ : Int) : Int × Int × Int :=
  (viewX + (v.loaderX - 48), viewY + (v.loaderY - 48), viewZ)

/-- `toViewPos` (`path.go` lines 1161-1165): window-relative coordinates
plus the validity flag. -/
def toViewPos (v : View) (worldX worldY worldZ : Int) : Int × Int × Int × Bool :=
  let viewX := worldX - (v.loaderX - 48)
  let viewY := worldY - (v.loaderY - 48)
  (viewX, viewY, worldZ, isValidViewPos viewX viewY worldZ)

/-- The scan order of `search`: offsets `(dx, dy, dz)` with each component
in `[0,16)`, x outermost, z innermost. -/
def searchOffsets : List (Nat × Nat × Nat) :=
  (List.range SEARCH_SIZE).flatMap (fun dx =>
    (List.range SEARCH_SIZE).flatMap (fun dy =>
      (List.range SEARCH_SIZE).map (fun dz => (dx, dy, dz))))

/-- `search` (`path.go` lines 1193-1209): scan a 16-cube backward from the
origin, visiting only valid, occupied cells; return the first cell the
predicate accepts. -/
def search (v : View) (viewX viewY viewZ : Int) (fx : Cell → Bool) : Option Cell :=
  searchOffsets.findSome? (fun d =>
    let vx := viewX - d.1
    let vy := viewY - d.2.1
    let vz := viewZ - d.2.2
    if isValidViewPos vx vy vz then
      let bp : Cell := ⟨vx.toNat, vy.toNat, vz.toNat⟩
      if 0 < (v.cells bp.x bp.y bp.z).block ∧ fx bp then some bp else none
    else none)

/-- `getBlockerAt` (`path.go` lines 1252-1278): reposition the scratch box,
search for the first occupied, non-pass-through cell other than `src` whose
box intersects it.  During pathfinding, registered path-through shapes
count only when `usePathThrough` is set, and any cell bearing the
destination's shape is always pass-through. -/
def getBlockerAt (v : View) (ctx : Ctx) (toViewX toViewY toViewZ : Int)
    (box : BoundingBox) (src : Option Cell) : Option Cell :=
  let moved := box.SetPos toViewX toViewY toViewZ
  search v (toViewX + box.W) (toViewY + box.H) (toViewZ + box.D) (fun bp =>
    let bpBlock := (v.cells bp.x bp.y bp.z).block
    let endBlock := (v.cells ctx.endC.x ctx.endC.y ctx.endC.z).block
    let pathThrough :=
      if ctx.isPathing then
        (if ctx.usePathThrough then v.pathThroughShapes (bpBlock - 1) else false)
          || decide (0 < endBlock ∧ bpBlock = endBlock)
      else false
    !pathThrough && decide (src ≠ some bp)
      && (v.cells bp.x bp.y bp.z).box.intersect moved)

/-- `GetBlocker` (`path.go` lines 1236-1250): nothing blocks when the start
cell is empty or the target is outside the window; otherwise delegate to
`getBlockerAt` with the start cell's own box. -/
def GetBlocker (v : View) (ctx : Ctx) (toWorldX toWorldY toWorldZ : Int) :
    Option Cell :=
  let src := ctx.start
  if (v.cells src.x src.y src.z).block = 0 then none
  else
    let t := toViewPos v toWorldX toWorldY toWorldZ
    if t.2.2.2 then
      getBlockerAt v ctx t.1 t.2.1 t.2.2.1 (v.cells src.x src.y src.z).box (some src)
    else none

/-- The pathfinding scratch state: the `pathNode` fields of every cell
(`path.go` lines 10-17), as total maps over cells. -/
structure AState where
  f : Cell → Int
  g : Cell → Int
  h : Cell → Int
  visited : Cell → Bool
  closed : Cell → Bool
  fitCalled : Cell → Bool
  blocker : Cell → Option Cell
  parent : Cell → Option Cell

/-- `resetPathFind` (`path.go` lines 181-197): all scratch fields cleared. -/
def resetState : AState :=
  { f := fun _ => 0, g := fun _ => 0, h := fun _ => 0,
    visited := fun _ => false, closed := fun _ => false,
    fitCalled := fun _ => false, blocker := fun _ => none,
    parent := fun _ => none }

/-- `getBlockerWithCache` (`path.go` lines 1369-1379): during pathfinding
the blocker of a cell is computed once per search and memoized. -/
def getBlockerWithCache (v : View) (ctx : Ctx) (st : AState) (node : Cell) :
    AState × Option Cell :=
  if ctx.isPathing then
    if st.fitCalled node then (st, st.blocker node)
    else
      let nd := v.cells node.x node.y node.z
      let b := GetBlocker v ctx nd.worldX nd.worldY nd.worldZ
      ({ st with fitCalled := fun c => if c = node then true else st.fitCalled c,
                 blocker := fun c => if c = node then b else st.blocker c }, b)
  else
    let nd := v.cells node.x node.y node.z
    (st, GetBlocker v ctx nd.worldX nd.worldY nd.worldZ)

/-- The drop-down loop at the head of `tryMove`: starting at `z`, walk down
while the cell below is unblocked; stop at the first support found (or at
the floor), returning the resulting level and the support cell. -/
def dropScan (v : View) (ctx : Ctx) (x y : Nat) (st : AState) :
    Nat → AState × Nat × Option Cell
  | 0 => (st, 0, none)
  | z + 1 =>
    match getBlockerWithCache v ctx st ⟨x, y, z⟩ with
    | (st₁, some b) => (st₁, z + 1, some b)
    | (st₁, none) => dropScan v ctx x y st₁ z

/-- `tryMove` (`path.go` lines 1337-1367): drop down if possible (refusing
a no-support surface for a non-flying mover), else move at the same level,
else step up one cell.  (The Go step-up probe indexes `z+1` and would panic
at the top of the window; the modelled grid is total, and the pathfinder
never reaches that level through its own moves.) -/
def tryMove (v : View) (ctx : Ctx) (st : AState) (newViewX newViewY newViewZ : Nat) :
    AState × Option Cell :=
  let dropped := dropScan v ctx newViewX newViewY st newViewZ
  let st₁ := dropped.1
  let z := dropped.2.1
  let standingOn := dropped.2.2
  let noSup :=
    match standingOn with
    | some so => !ctx.isFlying && v.noSupport ((v.cells so.x so.y so.z).block - 1)
    | none => false
  if noSup then (st₁, none)
  else if z < newViewZ then (st₁, some ⟨newViewX, newViewY, z⟩)
  else
    let sameZ := getBlockerWithCache v ctx st₁ ⟨newViewX, newViewY, newViewZ⟩
    match sameZ with
    | (st₂, none) => (st₂, some ⟨newViewX, newViewY, newViewZ⟩)
    | (st₂, some _) =>
      let up := getBlockerWithCache v ctx st₂ ⟨newViewX, newViewY, newViewZ + 1⟩
      match up with
      | (st₃, none) => (st₃, some ⟨newViewX, newViewY, newViewZ + 1⟩)
      | (st₃, some _) => (st₃, none)

/-- `astarNeighbors` (`path.go` lines 142-165): the up-to-four lateral
moves out of a node, in the order x-1, x+1, y-1, y+1, each resolved through
`tryMove`. -/
def astarNeighbors (v : View) (ctx : Ctx) (st : AState) (node : Cell) :
    AState × List Cell :=
  let s1 :=
    if 1 ≤ node.x then
      match tryMove v ctx st (node.x - 1) node.y node.z with
      | (st₁, some c) => (st₁, [c])
      | (st₁, none) => (st₁, [])
    else (st, [])
  let s2 :=
    if node.x + 1 < 96 then
      match tryMove v ctx s1.1 (node.x + 1) node.y node.z with
      | (st₁, some c) => (st₁, s1.2 ++ [c])
      | (st₁, none) => (st₁, s1.2)
    else s1
  let s3 :=
    if 1 ≤ node.y then
      match tryMove v ctx s2.1 node.x (node.y - 1) node.z with
      | (st₁, some c) => (st₁, s2.2 ++ [c])
      | (st₁, none) => (st₁, s2.2)
    else s2
  if node.y + 1 < 96 then
    match tryMove v ctx s3.1 node.x (node.y + 1) node.z with
    | (st₁, some c) => (st₁, s3.2 ++ [c])
    | (st₁, none) => (st₁, s3.2)
  else s3

/-- `util.AbsInt`, the absolute value on `int` (the `util` package is not
under `src/`; modelled as the usual absolute value its name and uses
denote). -/
def AbsInt (n : Int) : Int :=
  if n < 0 then -n else n

/-- `heuristic` (`path.go` lines 134-140): the value the search assigns to
a freshly visited neighbor `pos0` against the goal `pos1`.  Note how both
half-widths are added on the same side of each difference, exactly as the
Go expression parses. -/
def heuristic (ctx : Ctx) (pos0 pos1 : Cell) : Int :=
  let d1 := AbsInt ((pos1.x : Int) + ctx.startBox.W.tdiv 2 - (pos0.x : Int) + ctx.endBox.W.tdiv 2)
  let d2 := AbsInt ((pos1.y : Int) + ctx.startBox.W.tdiv 2 - (pos0.y : Int) + ctx.endBox.W.tdiv 2)
  let d3 := AbsInt ((pos1.z : Int) + ctx.startBox.W.tdiv 2 - (pos0.z : Int) + ctx.endBox.W.tdiv 2)
  d1 + d2 + d3

/-- The body of the neighbor loop of `findPath` (`path.go` lines 97-127):
skip closed neighbors; a first visit takes the tentative g unconditionally,
computes the heuristic once and joins the open list; a revisit is accepted
only on a strictly better g. -/
def visitNeighbor (ctx : Ctx) (current neighbor : Cell)
    (st : AState) (openList : List Cell) : AState × List Cell :=
  if st.closed neighbor then (st, openList)
  else
    let gScore := st.g current + 1
    if !st.visited neighbor then
      let hv := heuristic ctx neighbor ctx.endC
      ({ st with
         h := fun c => if c = neighbor then hv else st.h c,
         visited := fun c => if c = neighbor then true else st.visited c,
         parent := fun c => if c = neighbor then some current else st.parent c,
         g := fun c => if c = neighbor then gScore else st.g c,
         f := fun c => if c = neighbor then gScore + hv else st.f c },
       openList ++ [neighbor])
    else if gScore < st.g neighbor then
      ({ st with
         parent := fun c => if c = neighbor then some current else st.parent c,
         g := fun c => if c = neighbor then gScore else st.g c,
         f := fun c => if c = neighbor then gScore + st.h neighbor else st.f c },
       openList)
    else (st, openList)

/-- The minimum-f scan of `findPath` (`path.go` lines 74-79): the index of
the first element with minimal f. -/
def lowIndex (f : Cell → Int) (openList : List Cell) : Nat :=
  (openList.enum.foldl
    (fun low p => if f p.2 < f (openList.getD low default) then p.1 else low) 0)

/-- `remove` (`path.go` lines 199-203): swap the last element into slot `i`
and drop the tail slot. -/
def removeAt (s : List Cell) (i : Nat) : List Cell :=
  (s.set i (s.getD (s.length - 1) default)).dropLast

/-- `PathStep`: one world coordinate of the produced path. -/
abbrev PathStep := Int × Int × Int

/-- `generatePath` (`path.go` lines 171-179): walk the parent links back
from the goal, collecting world coordinates, then reverse.  The walk is
fueled; parent links written by the search always terminate within the
grid size. -/
def generatePath (v : View) (st : AState) : Nat → Cell → List PathStep → List PathStep
  | 0, _, acc => acc.reverse
  | fuel + 1, cur, acc =>
    match st.parent cur with
    | none => acc.reverse
    | some p =>
      let w := toWorldPos v (cur.x : Int) (cur.y : Int) (cur.z : Int)
      generatePath v st fuel p (acc ++ [w])

/-- Fuel bounding the A* main loop: one unit per cell of the window plus
one; each iteration pops an element of the open list, and every cell joins
the open list at most once. -/
def FUEL : Nat := 96 * 96 * 24 + 1

/-- The main loop of `findPath` (`path.go` lines 72-128): pop the first
minimal-f node, succeed when the mover's box there meets the goal box,
otherwise close it and process its neighbors. -/
def astarLoop (v : View) (ctx : Ctx) : Nat → AState → List Cell → Option (List PathStep)
  | 0, _, _ => none
  | fuel + 1, st, openList =>
    if openList.isEmpty then none
    else
      let lowInd := lowIndex st.f openList
      let currentNode := openList.getD lowInd default
      let sb := ctx.startBox.SetPos (currentNode.x : Int) (currentNode.y : Int) (currentNode.z : Int)
      if sb.intersect ctx.endBox then
        some (generatePath v st FUEL currentNode [])
      else
        let openList₁ := removeAt openList lowInd
        let st₁ := { st with closed := fun c => if c = currentNode then true else st.closed c }
        let expanded := astarNeighbors v ctx st₁ currentNode
        let folded := expanded.2.foldl
          (fun (acc : AState × List Cell) nb => visitNeighbor ctx currentNode nb acc.1 acc.2)
          (expanded.1, openList₁)
        astarLoop v ctx fuel folded.1 folded.2

/-- `findPath` (`path.go` lines 69-132): reset the scratch state and run
the A* loop from the context's start cell. -/
def findPathRun (v : View) (ctx : Ctx) : Option (List PathStep) :=
  astarLoop v ctx FUEL resetState [ctx.start]

/-- The pathfinding context `FindPath` builds (`path.go` lines 33-44, 48)
for a given pass: `usePathThrough` is the only difference between the two
passes. -/
def fpCtx (v : View) (sx sy sz ex ey ez : Int) (isFlying : Bool) (dSrc dDst : Int)
    (usePathThrough : Bool) : Ctx :=
  let s := toViewPos v sx sy sz
  let e := toViewPos v ex ey ez
  { isFlying := isFlying, isPathing := true, usePathThrough := usePathThrough,
    start := ⟨s.1.toNat, s.2.1.toNat, s.2.2.1.toNat⟩,
    endC := ⟨e.1.toNat, e.2.1.toNat, e.2.2.1.toNat⟩,
    startBox := ⟨s.1, s.2.1, s.2.2.1, dSrc, dSrc, 4⟩,
    endBox := ⟨e.1, e.2.1, e.2.2.1, dDst, dDst, 4⟩ }

/-- `FindPath` (`path.go` lines 32-54).  Returns the steps found together
with the `usePathThrough` flags of the searches actually executed, in
order: the first pass treats registered path-through shapes as solid, and
the second pass runs exactly when the first finds nothing. -/
def FindPath (v : View) (sx sy sz ex ey ez : Int) (isFlying : Bool) (dSrc dDst : Int) :
    Option (List PathStep) × List Bool :=
  let s := toViewPos v sx sy sz
  let e := toViewPos v ex ey ez
  if s.2.2.2 && e.2.2.2 then
    let r1 := findPathRun v (fpCtx v sx sy sz ex ey ez isFlying dSrc dDst false)
    match r1 with
    | some steps => (some steps, [false])
    | none => (findPathRun v (fpCtx v sx sy sz ex ey ez isFlying dSrc dDst true), [false, true])
  else (none, [])

/-- The heuristic the claim describes, following the spec's words: the
Manhattan distance between the neighbor cell and the goal cell where each
endpoint is offset by half the width of its respective bounding box — the
mover's start box for the neighbor, the destination box for the goal. -/
def claimedHeuristic (ctx : Ctx) (neighbor goal : Cell) : Int :=
  AbsInt (((goal.x : Int) + ctx.endBox.W.tdiv 2) - ((neighbor.x : Int) + ctx.startBox.W.tdiv 2)) +
    AbsInt (((goal.y : Int) + ctx.endBox.W.tdiv 2) - ((neighbor.y : Int) + ctx.startBox.W.tdiv 2)) +
    AbsInt (((goal.z : Int) + ctx.endBox.W.tdiv 2) - ((neighbor.z : Int) + ctx.startBox.W.tdiv 2))

/-- What the code actually assigns: on each axis, both half-widths are added
to the goal-minus-neighbor difference (the start box's half-width lands on
the goal and the destination box's half-width enters with the wrong sign
relative to the neighbor). -/
def assignedHeuristicFormula (ctx : Ctx) (neighbor goal : Cell) : Int :=
  AbsInt (((goal.x : Int) - (neighbor.x : Int)) + ctx.startBox.W.tdiv 2 + ctx.endBox.W.tdiv 2) +
    AbsInt (((goal.y : Int) - (neighbor.y : Int)) + ctx.startBox.W.tdiv 2 + ctx.endBox.W.tdiv 2) +
    AbsInt (((goal.z : Int) - (neighbor.z : Int)) + ctx.startBox.W.tdiv 2 + ctx.endBox.W.tdiv 2)

/-- A fully empty view window, the focal point placed so that view and
world coordinates coincide (used by concrete witnesses). -/
def vEmpty : View :=
  { loaderX := 48, loaderY := 48,
    cells := fun x y z => ⟨x, y, z, 0, ⟨x, y, z, 0, 0, 0⟩⟩,
    noSupport := fun _ => false, pathThroughShapes := fun _ => false }

/-- The first-pass pathfinding context of a concrete `FindPath` call on the
empty window, from `(10,10,0)` to `(12,10,0)` with source box width 2 and
destination box width 1. -/
def ctx9 : Ctx := fpCtx vEmpty 10 10 0 12 10 0 false 2 1 false

/-- The scratch state right after the A* loop popped and closed the start
node of `ctx9`, exactly as `findPath`'s first iteration produces it. -/
def st9 : AState :=
  { resetState with closed := fun c => if c = ctx9.start then true else resetState.closed c }

/-- The first neighbor expansion of that search: the state and neighbor
list `astarNeighbors` returns for the start node. -/
def exp9 : AState × List Cell := astarNeighbors vEmpty ctx9 st9 ctx9.start

end Gfx

namespace World

/-- An empty disk (used by concrete witnesses). -/
def diskEmpty : Int × Int → Option FileData := fun _ => none

/-- An all-zero section keyed `(sx, sy)` (used by concrete witnesses). -/
def secAt (sx sy : Int) : Section :=
  { X := sx, Y := sy, position := fun _ _ _ => 0, edges := fun _ _ => 0 }

/-- A loader whose four slots hold distinct sections with strictly
increasing stamps (used by concrete witnesses of the eviction behavior). -/
def ldFull : Loader :=
  { X := 5000, Y := 5000,
    cache := fun i => some (secAt (i.val : Int) 0),
    times := fun i => i.val, clock := 10, disk := diskEmpty }

/-- A section with non-trivial contents (used by concrete witnesses). -/
def secDemo : Section :=
  { X := 2, Y := 9,
    position := fun a b c => (a : Int) * 10000 + b * 100 + c,
    edges := fun a b => (a : Int) * 1000 + b }

end World

end Isongn

namespace Isongn

namespace World

theorem firstHit_some {c : Fin 4 → Option Section} {sx sy : Int} :
    ∀ {l : List (Fin 4)} {i : Fin 4} {s : Section},
      firstHit c sx sy l = some (i, s) → c i = some s ∧ s.X = sx ∧ s.Y = sy := by
  intro l
  induction l with
  | nil => intro i s h; simp [firstHit] at h
  | cons a rest ih =>
    intro i s h
    rw [firstHit] at h
    split at h
    · rename_i s₁ hc
      split_ifs at h with hk
      · cases h
        exact ⟨hc, hk⟩
      · exact ih h
    · exact ih h

theorem firstHit_none {c : Fin 4 → Option Section} {sx sy : Int} :
    ∀ {l : List (Fin 4)}, firstHit c sx sy l = none →
      ∀ i ∈ l, ∀ s, c i = some s → s.X = sx → s.Y = sy → False := by
  intro l
  induction l with
  | nil => intro _ i hi; simp at hi
  | cons a rest ih =>
    intro h i hi s hc hX hY
    rw [firstHit] at h
    rcases List.mem_cons.mp hi with rfl | hmem
    · rw [hc] at h
      simp [hX, hY] at h
    · split at h
      · split_ifs at h
        exact ih h i hmem s hc hX hY
      · exact ih h i hmem s hc hX hY

theorem firstHit_update_hit {c : Fin 4 → Option Section} {sx sy : Int}
    {s₂ : Section} (hX : s₂.X = sx) (hY : s₂.Y = sy) :
    ∀ {l : List (Fin 4)} {i : Fin 4} {s : Section},
      firstHit c sx sy l = some (i, s) →
      firstHit (fun j => if j = i then some s₂ else c j) sx sy l = some (i, s₂) := by
  intro l
  induction l with
  | nil => intro i s h; simp [firstHit] at h
  | cons a rest ih =>
    intro i s h
    rw [firstHit] at h
    by_cases hai : a = i
    · subst hai
      rw [firstHit]
      simp [hX, hY]
    · rw [firstHit]
      simp only [if_neg hai]
      split at h
      · split_ifs at h with hk
        · cases h
          exact absurd rfl hai
        · rw [if_neg hk]
          exact ih h
      · exact ih h

theorem firstHit_none_update {c : Fin 4 → Option Section} {sx sy : Int}
    {s₂ : Section} (hX : s₂.X = sx) (hY : s₂.Y = sy) :
    ∀ {l : List (Fin 4)} {j : Fin 4},
      firstHit c sx sy l = none → j ∈ l →
      firstHit (fun k => if k = j then some s₂ else c k) sx sy l = some (j, s₂) := by
  intro l
  induction l with
  | nil => intro j _ hj; simp at hj
  | cons a rest ih =>
    intro j h hj
    rw [firstHit] at h
    by_cases haj : a = j
    · subst haj
      rw [firstHit]
      simp [hX, hY]
    · rw [firstHit]
      simp only [if_neg haj]
      have hjrest : j ∈ rest := by
        rcases List.mem_cons.mp hj with rfl | hmem
        · exact absurd rfl haj
        · exact hmem
      split at h
      · split_ifs at h with hk
        rw [if_neg hk]
        exact ih h hjrest
      · exact ih h hjrest

theorem getSection_hit_eval {ld : Loader} {sx sy : Int} {i : Fin 4} {s : Section}
    (h : firstHit ld.cache sx sy (List.finRange 4) = some (i, s)) :
    getSection ld sx sy =
      { sec := s, idx := i,
        ld := { ld with times := fun j => if j = i then ld.clock else ld.times j,
                        clock := ld.clock + 1 },
        events := [] } := by
  unfold getSection
  rw [h]

theorem getSection_miss_eval {ld : Loader} {sx sy : Int}
    (h : firstHit ld.cache sx sy (List.finRange 4) = none) :
    getSection ld sx sy =
      (let j := oldestIndex ld.times
       let saved : Loader × List Event :=
         match ld.cache j with
         | some old => (ld.save old, [Event.save old.X old.Y])
         | none => (ld, [])
       let s := saved.1.load sx sy
       { sec := s, idx := j,
         ld := { saved.1 with
                 cache := fun k => if k = j then some s else saved.1.cache k,
                 times := fun k => if k = j then saved.1.clock else saved.1.times k,
                 clock := saved.1.clock + 1 },
         events := saved.2 ++ [Event.load sx sy] }) := by
  unfold getSection
  rw [h]

theorem load_key (ld : Loader) (sx sy : Int) :
    (ld.load sx sy).X = sx ∧ (ld.load sx sy).Y = sy := by
  unfold Loader.load
  cases ld.disk (sx, sy) <;> simp

theorem save_cache (ld : Loader) (s : Section) : (ld.save s).cache = ld.cache := rfl

theorem getSection_key (ld : Loader) (sx sy : Int) :
    (getSection ld sx sy).sec.X = sx ∧ (getSection ld sx sy).sec.Y = sy := by
  cases h : firstHit ld.cache sx sy (List.finRange 4) with
  | some p =>
    rw [getSection_hit_eval h]
    exact ⟨(firstHit_some h).2.1, (firstHit_some h).2.2⟩
  | none =>
    rw [getSection_miss_eval h]
    cases hc : ld.cache (oldestIndex ld.times) <;> simp [hc, load_key]

theorem getSection_self_hit (ld : Loader) (sx sy : Int) :
    firstHit (getSection ld sx sy).ld.cache sx sy (List.finRange 4) =
      some ((getSection ld sx sy).idx, (getSection ld sx sy).sec) := by
  cases h : firstHit ld.cache sx sy (List.finRange 4) with
  | some p =>
    obtain ⟨i, s⟩ := p
    rw [getSection_hit_eval h]
    exact h
  | none =>
    rw [getSection_miss_eval h]
    cases hc : ld.cache (oldestIndex ld.times) with
    | some old =>
      simp only [hc]
      refine firstHit_none_update ?_ ?_ ?_ (List.mem_finRange _)
      · exact (load_key _ sx sy).1
      · exact (load_key _ sx sy).2
      · rw [save_cache]; exact h
    | none =>
      simp only [hc]
      exact firstHit_none_update (load_key _ sx sy).1 (load_key _ sx sy).2 h
        (List.mem_finRange _)

/-- C4: the persistence round trip is the identity on the occupancy grid
and the edge overlay — a section written with `Loader.save` and read back
with `Loader.load` from the produced file has the same `[200][200][24]`
position array and `[200][200]` edge array (and the same key). -/
theorem save_load_roundtrip (ld : Loader) (s : Section) (i j k : Nat)
    (hi : i < 200) (hj : j < 200) (hk : k < 24) :
    ((ld.save s).load s.X s.Y).position i j k = s.position i j k ∧
    ((ld.save s).load s.X s.Y).edges i j = s.edges i j ∧
    ((ld.save s).load s.X s.Y).X = s.X ∧ ((ld.save s).load s.X s.Y).Y = s.Y := by
  have hfile : (ld.save s).disk (s.X, s.Y) =
      some { version := VERSION, pos := encodePosition s.position,
             edges := encodeEdges s.edges } := if_pos rfl
  unfold Loader.load
  rw [hfile]
  refine ⟨?_, ?_, rfl, rfl⟩
  · show s.position ((i * 4800 + j * 24 + k) / 4800) ((i * 4800 + j * 24 + k) / 24 % 200)
        ((i * 4800 + j * 24 + k) % 24) = s.position i j k
    have h1 : (i * 4800 + j * 24 + k) / 4800 = i := by omega
    have h2 : (i * 4800 + j * 24 + k) / 24 % 200 = j := by omega
    have h3 : (i * 4800 + j * 24 + k) % 24 = k := by omega
    rw [h1, h2, h3]
  · show s.edges ((i * 200 + j) / 200) ((i * 200 + j) % 200) = s.edges i j
    have h1 : (i * 200 + j) / 200 = i := by omega
    have h2 : (i * 200 + j) % 200 = j := by omega
    rw [h1, h2]

/-- Witness for C4 at a concrete section and cell. -/
theorem save_load_roundtrip_witness :
    (3 : Nat) < 200 ∧ (5 : Nat) < 200 ∧ (7 : Nat) < 24 ∧
    ((((NewLoader diskEmpty).save secDemo).load secDemo.X secDemo.Y).position 3 5 7 =
        secDemo.position 3 5 7 ∧
     (((NewLoader diskEmpty).save secDemo).load secDemo.X secDemo.Y).edges 3 5 =
        secDemo.edges 3 5 ∧
     (((NewLoader diskEmpty).save secDemo).load secDemo.X secDemo.Y).X = secDemo.X ∧
     (((NewLoader diskEmpty).save secDemo).load secDemo.X secDemo.Y).Y = secDemo.Y) :=
  ⟨by decide, by decide, by decide,
   save_load_roundtrip (NewLoader diskEmpty) secDemo 3 5 7 (by decide) (by decide) (by decide)⟩

/-- C5: for non-negative world coordinates the owning section key is
`(⌊x/200⌋, ⌊y/200⌋)` and the local cell `(x mod 200, y mod 200)`, with
both local indices in `[0, 200)`.  (`Int./` and `Int.%` here are floor
division and its non-negative remainder, which agree with mathematical
floor/mod for the positive divisor 200.) -/
theorem getPosInSection_key_local (ld : Loader) (wx wy wz : Int)
    (hx : 0 ≤ wx) (hy : 0 ≤ wy) :
    (getPosInSection ld wx wy wz).1.sec.X = wx / 200 ∧
    (getPosInSection ld wx wy wz).1.sec.Y = wy / 200 ∧
    (getPosInSection ld wx wy wz).2.1 = wx % 200 ∧
    (getPosInSection ld wx wy wz).2.2.1 = wy % 200 ∧
    0 ≤ (getPosInSection ld wx wy wz).2.1 ∧ (getPosInSection ld wx wy wz).2.1 < 200 ∧
    0 ≤ (getPosInSection ld wx wy wz).2.2.1 ∧ (getPosInSection ld wx wy wz).2.2.1 < 200 := by
  have hdx : wx.tdiv 200 = wx / 200 := Int.tdiv_eq_ediv hx (by norm_num)
  have hdy : wy.tdiv 200 = wy / 200 := Int.tdiv_eq_ediv hy (by norm_num)
  have hmx : wx.tmod 200 = wx % 200 := Int.tmod_eq_emod hx (by norm_num)
  have hmy : wy.tmod 200 = wy % 200 := Int.tmod_eq_emod hy (by norm_num)
  unfold getPosInSection SECTION_SIZE
  refine ⟨?_, ?_, ?_, ?_, ?_, ?_, ?_, ?_⟩
  · rw [hdx, hdy]; exact (getSection_key ld _ _).1
  · rw [hdx, hdy]; exact (getSection_key ld _ _).2
  · exact hmx
  · exact hmy
  · rw [hmx]; exact Int.emod_nonneg wx (by norm_num)
  · rw [hmx]; exact Int.emod_lt_of_pos wx (by norm_num)
  · rw [hmy]; exact Int.emod_nonneg wy (by norm_num)
  · rw [hmy]; exact Int.emod_lt_of_pos wy (by norm_num)

/-- Witness for C5 at concrete coordinates. -/
theorem getPosInSection_key_local_witness :
    (0 : Int) ≤ 403 ∧ (0 : Int) ≤ 1299 ∧
    ((getPosInSection (NewLoader diskEmpty) 403 1299 5).1.sec.X = 403 / 200 ∧
     (getPosInSection (NewLoader diskEmpty) 403 1299 5).1.sec.Y = 1299 / 200 ∧
     (getPosInSection (NewLoader diskEmpty) 403 1299 5).2.1 = 403 % 200 ∧
     (getPosInSection (NewLoader diskEmpty) 403 1299 5).2.2.1 = 1299 % 200 ∧
     0 ≤ (getPosInSection (NewLoader diskEmpty) 403 1299 5).2.1 ∧
     (getPosInSection (NewLoader diskEmpty) 403 1299 5).2.1 < 200 ∧
     0 ≤ (getPosInSection (NewLoader diskEmpty) 403 1299 5).2.2.1 ∧
     (getPosInSection (NewLoader diskEmpty) 403 1299 5).2.2.1 < 200) :=
  ⟨by decide, by decide,
   getPosInSection_key_local (NewLoader diskEmpty) 403 1299 5 (by decide) (by decide)⟩

/-- C7 counterexample: the claim says `MoveTo(x, y)` updates the focal
point and returns `true` exactly when `(x, y)` differs from the current
focal point; but for the fresh loader (focal point `(5000, 5000)`) the call
`MoveTo(-1, 0)` targets a different point yet returns `false` and leaves
the focal point unchanged, because the code also requires `x ≥ 0 ∧ y ≥ 0`. -/
theorem moveTo_counterexample :
    ¬((NewLoader diskEmpty).X = -1 ∧ (NewLoader diskEmpty).Y = 0) ∧
    (MoveTo (NewLoader diskEmpty) (-1) 0).1 = false ∧
    (MoveTo (NewLoader diskEmpty) (-1) 0).2.X = 5000 ∧
    (MoveTo (NewLoader diskEmpty) (-1) 0).2.Y = 5000 := by
  refine ⟨by decide, ?_, ?_, ?_⟩ <;> rfl

/-- C7 (amended): `MoveTo(x, y)` updates the focal point to `(x, y)`
exactly when `x ≥ 0`, `y ≥ 0` and `(x, y)` differs from the current focal
point; the returned boolean is `true` exactly in that case; and `MoveTo`
never touches the cache, the timestamps, the clock or the disk (it reloads
nothing). -/
theorem moveTo_spec (ld : Loader) (x y : Int) :
    ((MoveTo ld x y).1 = true ↔ (0 ≤ x ∧ 0 ≤ y ∧ ¬(ld.X = x ∧ ld.Y = y))) ∧
    ((MoveTo ld x y).1 = true → (MoveTo ld x y).2.X = x ∧ (MoveTo ld x y).2.Y = y) ∧
    ((MoveTo ld x y).1 = false → (MoveTo ld x y).2 = ld) ∧
    (MoveTo ld x y).2.cache = ld.cache ∧
    (MoveTo ld x y).2.times = ld.times ∧
    (MoveTo ld x y).2.clock = ld.clock ∧
    (MoveTo ld x y).2.disk = ld.disk := by
  unfold MoveTo
  by_cases h : 0 ≤ x ∧ 0 ≤ y ∧ (ld.X ≠ x ∨ ld.Y ≠ y)
  · rw [if_pos h]
    refine ⟨?_, ?_, ?_, rfl, rfl, rfl, rfl⟩
    · simp only [true_iff]
      exact ⟨h.1, h.2.1, fun hc => by rcases h.2.2 with hne | hne <;> [exact hne hc.1; exact hne hc.2]⟩
    · intro _; exact ⟨rfl, rfl⟩
    · intro hf; cases hf
  · rw [if_neg h]
    refine ⟨?_, ?_, ?_, rfl, rfl, rfl, rfl⟩
    · constructor
      · intro hft; exact absurd hft (by simp)
      · rintro ⟨hx, hy, hne⟩
        refine absurd ⟨hx, hy, ?_⟩ h
        by_cases hX : ld.X = x
        · exact Or.inr (fun hY => hne ⟨hX, hY⟩)
        · exact Or.inl hX
    · intro hc; exact absurd hc (by simp)
    · intro _; rfl

/-- C3: a cache hit fires no notification; a miss whose victim slot holds a
section fires exactly one `SectionSave` for the evicted section's
coordinates followed by the `SectionLoad` for the requested section; a miss
into an empty slot fires only the `SectionLoad`. -/
theorem getSection_events (ld : Loader) (sx sy : Int) :
    (∀ i s, firstHit ld.cache sx sy (List.finRange 4) = some (i, s) →
        (getSection ld sx sy).events = []) ∧
    (∀ old, firstHit ld.cache sx sy (List.finRange 4) = none →
        ld.cache (oldestIndex ld.times) = some old →
        (getSection ld sx sy).events = [Event.save old.X old.Y, Event.load sx sy]) ∧
    (firstHit ld.cache sx sy (List.finRange 4) = none →
        ld.cache (oldestIndex ld.times) = none →
        (getSection ld sx sy).events = [Event.load sx sy]) := by
  refine ⟨?_, ?_, ?_⟩
  · intro i s h
    rw [getSection_hit_eval h]
  · intro old h hc
    rw [getSection_miss_eval h]
    simp [hc]
  · intro h hc
    rw [getSection_miss_eval h]
    simp [hc]

/-- Witness for C3: concretely, a hit fires nothing, and an eviction out of
a full cache fires the save of the oldest-stamped slot's section before the
load of the requested one. -/
theorem getSection_events_witness :
    ((getSection ldFull 0 0).events = []) ∧
    ((getSection ldFull 7 9).events = [Event.save 0 0, Event.load 7 9]) := by
  constructor
  · exact (getSection_events ldFull 0 0).1 0 (secAt 0 0) rfl
  · exact (getSection_events ldFull 7 9).2.1 (secAt 0 0) rfl rfl

theorem getSection_cache_self (ld : Loader) (sx sy : Int) :
    (getSection ld sx sy).ld.cache (getSection ld sx sy).idx =
      some ((getSection ld sx sy).sec) :=
  (firstHit_some (getSection_self_hit ld sx sy)).1

theorem ResidentDistinct_place {c : Fin 4 → Option Section} {sx sy : Int}
    (h : ResidentDistinct c) (hfh : firstHit c sx sy (List.finRange 4) = none)
    {s : Section} (hX : s.X = sx) (hY : s.Y = sy) (j : Fin 4) :
    ResidentDistinct (fun k => if k = j then some s else c k) := by
  intro a b sa sb hca hcb hXX hYY
  simp only at hca hcb
  by_cases haj : a = j <;> by_cases hbj : b = j
  · rw [haj, hbj]
  · rw [if_pos haj] at hca
    rw [if_neg hbj] at hcb
    cases hca
    exact ((firstHit_none hfh b (List.mem_finRange b) sb hcb
      (hXX.symm.trans hX) (hYY.symm.trans hY)).elim)
  · rw [if_neg haj] at hca
    rw [if_pos hbj] at hcb
    cases hcb
    exact ((firstHit_none hfh a (List.mem_finRange a) sa hca
      (hXX.trans hX) (hYY.trans hY)).elim)
  · rw [if_neg haj] at hca
    rw [if_neg hbj] at hcb
    exact h a b sa sb hca hcb hXX hYY

theorem ResidentDistinct_getSection (ld : Loader) (sx sy : Int)
    (h : ResidentDistinct ld.cache) :
    ResidentDistinct (getSection ld sx sy).ld.cache := by
  cases hfh : firstHit ld.cache sx sy (List.finRange 4) with
  | some p =>
    obtain ⟨i, s⟩ := p
    rw [getSection_hit_eval hfh]
    exact h
  | none =>
    rw [getSection_miss_eval hfh]
    cases hc : ld.cache (oldestIndex ld.times) with
    | some old =>
      simp only [hc]
      exact ResidentDistinct_place h hfh (load_key _ sx sy).1 (load_key _ sx sy).2 _
    | none =>
      simp only [hc]
      exact ResidentDistinct_place h hfh (load_key _ sx sy).1 (load_key _ sx sy).2 _

theorem ResidentDistinct_writeBack {ld : Loader} (h : ResidentDistinct ld.cache)
    {i : Fin 4} {s s₂ : Section}
    (hc : ld.cache i = some s) (hX : s₂.X = s.X) (hY : s₂.Y = s.Y) :
    ResidentDistinct (writeBack ld i s₂).cache := by
  intro a b sa sb hca hcb hXX hYY
  unfold writeBack at hca hcb
  simp only at hca hcb
  by_cases hai : a = i <;> by_cases hbi : b = i
  · rw [hai, hbi]
  · rw [if_pos hai] at hca
    rw [if_neg hbi] at hcb
    cases hca
    exact (hbi (h b i sb s hcb hc (hXX.symm.trans hX) (hYY.symm.trans hY))).elim
  · rw [if_neg hai] at hca
    rw [if_pos hbi] at hcb
    cases hcb
    exact (hai (h a i sa s hca hc (hXX.trans hX) (hYY.trans hY))).elim
  · rw [if_neg hai] at hca
    rw [if_neg hbi] at hcb
    exact h a b sa sb hca hcb hXX hYY

theorem ResidentDistinct_applyOp (ld : Loader) (op : WorldOp)
    (h : ResidentDistinct ld.cache) :
    ResidentDistinct (applyOp ld op).cache := by
  cases op with
  | setShape x y z i =>
    show ResidentDistinct (SetShape ld x y z i).ld.cache
    simp only [SetShape, getPosInSection]
    split_ifs with hb
    · exact ResidentDistinct_writeBack (ResidentDistinct_getSection ld _ _ h)
        (getSection_cache_self ld _ _) rfl rfl
    · exact ResidentDistinct_getSection ld _ _ h
  | eraseShape x y z =>
    show ResidentDistinct (EraseShape ld x y z).ld.cache
    simp only [EraseShape, getPosInSection]
    split_ifs with hb hv
    · exact ResidentDistinct_writeBack (ResidentDistinct_getSection ld _ _ h)
        (getSection_cache_self ld _ _) rfl rfl
    · exact ResidentDistinct_getSection ld _ _ h
    · exact ResidentDistinct_getSection ld _ _ h
  | getShape x y z =>
    show ResidentDistinct (GetShape ld x y z).ld.cache
    simp only [GetShape, getPosInSection]
    split_ifs with hb hv
    · exact ResidentDistinct_getSection ld _ _ h
    · exact ResidentDistinct_getSection ld _ _ h
    · exact ResidentDistinct_getSection ld _ _ h
  | setEdge x y i =>
    show ResidentDistinct (SetEdge ld x y i).ld.cache
    simp only [SetEdge, getPosInSection]
    split_ifs with hb
    · exact ResidentDistinct_writeBack (ResidentDistinct_getSection ld _ _ h)
        (getSection_cache_self ld _ _) rfl rfl
    · exact ResidentDistinct_getSection ld _ _ h
  | getEdge x y =>
    show ResidentDistinct (GetEdge ld x y).ld.cache
    simp only [GetEdge, getPosInSection]
    split_ifs with hb hv
    · exact ResidentDistinct_getSection ld _ _ h
    · exact ResidentDistinct_getSection ld _ _ h
    · exact ResidentDistinct_getSection ld _ _ h
  | clearEdge x y =>
    show ResidentDistinct (ClearEdge ld x y).ld.cache
    simp only [ClearEdge, getPosInSection]
    split_ifs with hb
    · exact ResidentDistinct_writeBack (ResidentDistinct_getSection ld _ _ h)
        (getSection_cache_self ld _ _) rfl rfl
    · exact ResidentDistinct_getSection ld _ _ h

/-- C2: after any sequence of shape/edge get, set and erase operations on a
fresh Section Store, at most 4 sections are resident and no two non-nil
cache slots hold sections with the same `(sectionX, sectionY)` key. -/
theorem cache_invariant (disk : Int × Int → Option FileData) (ops : List WorldOp) :
    (residentKeys (applyOps (NewLoader disk) ops).cache).length ≤ 4 ∧
    ResidentDistinct (applyOps (NewLoader disk) ops).cache := by
  constructor
  · calc (residentKeys (applyOps (NewLoader disk) ops).cache).length
        ≤ (List.finRange 4).length := List.length_filterMap_le _ _
      _ = 4 := by simp
  · have init : ResidentDistinct (NewLoader disk).cache := by
      intro a b sa sb hca hcb _ _
      cases hca
    have step : ∀ (ops₂ : List WorldOp) (ld : Loader), ResidentDistinct ld.cache →
        ResidentDistinct (applyOps ld ops₂).cache := by
      intro ops₂
      induction ops₂ with
      | nil => intro ld h; exact h
      | cons op rest ih =>
        intro ld h
        exact ih (applyOp ld op) (ResidentDistinct_applyOp ld op h)
    exact step ops (NewLoader disk) init

theorem SetShape_establish (ld : Loader) (x y z iv : Int)
    (hb : posInRange (x.tmod SECTION_SIZE) (y.tmod SECTION_SIZE) z) :
    (SetShape ld x y z iv).res = some true ∧
    ∃ i s, firstHit (SetShape ld x y z iv).ld.cache (x.tdiv SECTION_SIZE)
        (y.tdiv SECTION_SIZE) (List.finRange 4) = some (i, s) ∧
      s.position (x.tmod SECTION_SIZE).toNat (y.tmod SECTION_SIZE).toNat z.toNat = iv + 1 := by
  simp only [SetShape, getPosInSection]
  rw [if_pos hb]
  refine ⟨rfl, (getSection ld (x.tdiv SECTION_SIZE) (y.tdiv SECTION_SIZE)).idx,
    { (getSection ld (x.tdiv SECTION_SIZE) (y.tdiv SECTION_SIZE)).sec with
      position := fun a b c =>
        if a = (x.tmod SECTION_SIZE).toNat ∧ b = (y.tmod SECTION_SIZE).toNat ∧ c = z.toNat
        then iv + 1
        else (getSection ld (x.tdiv SECTION_SIZE) (y.tdiv SECTION_SIZE)).sec.position a b c },
    ?_, ?_⟩
  · simp only [writeBack]
    refine firstHit_update_hit ?_ ?_ (getSection_self_hit ld _ _)
    · exact (getSection_key ld _ _).1
    · exact (getSection_key ld _ _).2
  · simp

theorem GetShape_at (ld : Loader) (x y z : Int) (i : Fin 4) (s : Section)
    (hfh : firstHit ld.cache (x.tdiv SECTION_SIZE) (y.tdiv SECTION_SIZE)
      (List.finRange 4) = some (i, s))
    (hb : posInRange (x.tmod SECTION_SIZE) (y.tmod SECTION_SIZE) z) :
    (GetShape ld x y z).res =
      some (if s.position (x.tmod SECTION_SIZE).toNat (y.tmod SECTION_SIZE).toNat z.toNat = 0
            then (0, false)
            else (s.position (x.tmod SECTION_SIZE).toNat (y.tmod SECTION_SIZE).toNat z.toNat - 1,
                  true)) ∧
    (GetShape ld x y z).ld.cache = ld.cache := by
  simp only [GetShape, getPosInSection]
  rw [getSection_hit_eval hfh, if_pos hb]
  constructor
  · split_ifs <;> rfl
  · split_ifs <;> rfl

theorem EraseShape_at_pos (ld : Loader) (x y z : Int) (i : Fin 4) (s : Section)
    (hfh : firstHit ld.cache (x.tdiv SECTION_SIZE) (y.tdiv SECTION_SIZE)
      (List.finRange 4) = some (i, s))
    (hb : posInRange (x.tmod SECTION_SIZE) (y.tmod SECTION_SIZE) z)
    (hv : 0 < s.position (x.tmod SECTION_SIZE).toNat (y.tmod SECTION_SIZE).toNat z.toNat) :
    (EraseShape ld x y z).res = some true ∧
    ∃ s₂, firstHit (EraseShape ld x y z).ld.cache (x.tdiv SECTION_SIZE)
        (y.tdiv SECTION_SIZE) (List.finRange 4) = some (i, s₂) ∧
      s₂.position (x.tmod SECTION_SIZE).toNat (y.tmod SECTION_SIZE).toNat z.toNat = 0 := by
  simp only [EraseShape, getPosInSection]
  rw [getSection_hit_eval hfh, if_pos hb, if_pos hv]
  refine ⟨rfl,
    { s with position := fun a b c =>
        if a = (x.tmod SECTION_SIZE).toNat ∧ b = (y.tmod SECTION_SIZE).toNat ∧ c = z.toNat
        then 0 else s.position a b c },
    ?_, by simp⟩
  simp only [writeBack]
  refine firstHit_update_hit ?_ ?_ hfh
  · exact (firstHit_some hfh).2.1
  · exact (firstHit_some hfh).2.2

theorem EraseShape_at_zero (ld : Loader) (x y z : Int) (i : Fin 4) (s : Section)
    (hfh : firstHit ld.cache (x.tdiv SECTION_SIZE) (y.tdiv SECTION_SIZE)
      (List.finRange 4) = some (i, s))
    (hb : posInRange (x.tmod SECTION_SIZE) (y.tmod SECTION_SIZE) z)
    (hv : s.position (x.tmod SECTION_SIZE).toNat (y.tmod SECTION_SIZE).toNat z.toNat = 0) :
    (EraseShape ld x y z).res = some false ∧
    (EraseShape ld x y z).ld.cache = ld.cache := by
  simp only [EraseShape, getPosInSection]
  rw [getSection_hit_eval hfh, if_pos hb]
  have hnv : ¬(0 < s.position (x.tmod SECTION_SIZE).toNat (y.tmod SECTION_SIZE).toNat z.toNat) := by
    omega
  rw [if_neg hnv]
  exact ⟨rfl, rfl⟩

/-- C1 (amended): for non-negative world coordinates with `z` in `[0, 24)`
and a non-negative shape index `i`, `SetShape` then `GetShape` yields
`(i, true)`; the first `EraseShape` afterward returns `true`, the second
`false`, and `GetShape` then reports not-found. -/
theorem set_get_erase_roundtrip (ld : Loader) (x y z iv : Int)
    (hx : 0 ≤ x) (hy : 0 ≤ y) (hz : 0 ≤ z) (hz24 : z < 24) (hiv : 0 ≤ iv) :
    (SetShape ld x y z iv).res = some true ∧
    (GetShape (SetShape ld x y z iv).ld x y z).res = some (iv, true) ∧
    (EraseShape (GetShape (SetShape ld x y z iv).ld x y z).ld x y z).res = some true ∧
    (EraseShape (EraseShape (GetShape (SetShape ld x y z iv).ld x y z).ld x y z).ld
      x y z).res = some false ∧
    (GetShape (EraseShape (EraseShape (GetShape (SetShape ld x y z iv).ld x y z).ld
      x y z).ld x y z).ld x y z).res = some (0, false) := by
  have hmx : x.tmod SECTION_SIZE = x % 200 := Int.tmod_eq_emod hx (by decide)
  have hmy : y.tmod SECTION_SIZE = y % 200 := Int.tmod_eq_emod hy (by decide)
  have hb : posInRange (x.tmod SECTION_SIZE) (y.tmod SECTION_SIZE) z := by
    unfold posInRange
    rw [hmx, hmy]
    have h1 := Int.emod_nonneg x (show (200 : Int) ≠ 0 by norm_num)
    have h2 := Int.emod_lt_of_pos x (show (0 : Int) < 200 by norm_num)
    have h3 := Int.emod_nonneg y (show (200 : Int) ≠ 0 by norm_num)
    have h4 := Int.emod_lt_of_pos y (show (0 : Int) < 200 by norm_num)
    exact ⟨h1, h2, h3, h4, hz, hz24⟩
  obtain ⟨hres1, i, s, hfh1, hval1⟩ := SetShape_establish ld x y z iv hb
  obtain ⟨hres2, hcache2⟩ := GetShape_at _ x y z i s hfh1 hb
  have hres2v : (GetShape (SetShape ld x y z iv).ld x y z).res = some (iv, true) := by
    rw [hres2, hval1]
    have hne : ¬(iv + 1 = 0) := by omega
    rw [if_neg hne]
    have : iv + 1 - 1 = iv := by omega
    rw [this]
  have hfh2 : firstHit (GetShape (SetShape ld x y z iv).ld x y z).ld.cache
      (x.tdiv SECTION_SIZE) (y.tdiv SECTION_SIZE) (List.finRange 4) = some (i, s) := by
    rw [hcache2]; exact hfh1
  obtain ⟨hres3, s₂, hfh3, hval3⟩ := EraseShape_at_pos _ x y z i s hfh2 hb
    (by rw [hval1]; omega)
  obtain ⟨hres4, hcache4⟩ := EraseShape_at_zero _ x y z i s₂ hfh3 hb hval3
  have hfh4 : firstHit (EraseShape (EraseShape (GetShape (SetShape ld x y z iv).ld
      x y z).ld x y z).ld x y z).ld.cache
      (x.tdiv SECTION_SIZE) (y.tdiv SECTION_SIZE) (List.finRange 4) = some (i, s₂) := by
    rw [hcache4]; exact hfh3
  obtain ⟨hres5, _⟩ := GetShape_at _ x y z i s₂ hfh4 hb
  have hres5v : (GetShape (EraseShape (EraseShape (GetShape (SetShape ld x y z iv).ld
      x y z).ld x y z).ld x y z).ld x y z).res = some (0, false) := by
    rw [hres5, hval3]
    rw [if_pos rfl]
  exact ⟨hres1, hres2v, hres3, hres4, hres5v⟩

/-- C1 counterexample: the claim quantifies over every shape index and
every world coordinate, but for shape index `-1` the stored value is
`-1 + 1 = 0`, so `GetShape` after `SetShape` reports not-found instead of
`(-1, true)` and the first `EraseShape` returns `false` instead of `true`;
and at the world coordinate `x = -1` the Go code panics on a negative
array index (modelled as a `none` result) instead of returning values at
all. -/
theorem set_get_erase_counterexample :
    (SetShape (NewLoader diskEmpty) 3 4 0 (-1)).res = some true ∧
    (GetShape (SetShape (NewLoader diskEmpty) 3 4 0 (-1)).ld 3 4 0).res =
      some (0, false) ∧
    (GetShape (SetShape (NewLoader diskEmpty) 3 4 0 (-1)).ld 3 4 0).res ≠
      some (-1, true) ∧
    (EraseShape (GetShape (SetShape (NewLoader diskEmpty) 3 4 0 (-1)).ld 3 4 0).ld
      3 4 0).res = some false ∧
    (SetShape (NewLoader diskEmpty) (-1) 4 0 5).res = none := by
  decide

/-- Witness for C1's theorem at concrete coordinates and shape index. -/
theorem set_get_erase_roundtrip_witness :
    (0 : Int) ≤ 403 ∧ (0 : Int) ≤ 1299 ∧ (0 : Int) ≤ 5 ∧ (5 : Int) < 24 ∧ (0 : Int) ≤ 7 ∧
    ((SetShape (NewLoader diskEmpty) 403 1299 5 7).res = some true ∧
     (GetShape (SetShape (NewLoader diskEmpty) 403 1299 5 7).ld 403 1299 5).res =
        some (7, true) ∧
     (EraseShape (GetShape (SetShape (NewLoader diskEmpty) 403 1299 5 7).ld
        403 1299 5).ld 403 1299 5).res = some true ∧
     (EraseShape (EraseShape (GetShape (SetShape (NewLoader diskEmpty) 403 1299 5 7).ld
        403 1299 5).ld 403 1299 5).ld 403 1299 5).res = some false ∧
     (GetShape (EraseShape (EraseShape (GetShape (SetShape (NewLoader diskEmpty)
        403 1299 5 7).ld 403 1299 5).ld 403 1299 5).ld 403 1299 5).ld 403 1299 5).res =
        some (0, false)) :=
  ⟨by decide, by decide, by decide, by decide, by decide,
   set_get_erase_roundtrip (NewLoader diskEmpty) 403 1299 5 7
     (by decide) (by decide) (by decide) (by decide) (by decide)⟩

/-- Witness for C7's amended theorem at a concrete call that does move. -/
theorem moveTo_spec_witness :
    ((MoveTo (NewLoader diskEmpty) 7 9).1 = true ↔
      (0 ≤ (7 : Int) ∧ 0 ≤ (9 : Int) ∧
        ¬((NewLoader diskEmpty).X = 7 ∧ (NewLoader diskEmpty).Y = 9))) ∧
    ((MoveTo (NewLoader diskEmpty) 7 9).1 = true →
      (MoveTo (NewLoader diskEmpty) 7 9).2.X = 7 ∧ (MoveTo (NewLoader diskEmpty) 7 9).2.Y = 9) ∧
    ((MoveTo (NewLoader diskEmpty) 7 9).1 = false →
      (MoveTo (NewLoader diskEmpty) 7 9).2 = NewLoader diskEmpty) ∧
    (MoveTo (NewLoader diskEmpty) 7 9).2.cache = (NewLoader diskEmpty).cache ∧
    (MoveTo (NewLoader diskEmpty) 7 9).2.times = (NewLoader diskEmpty).times ∧
    (MoveTo (NewLoader diskEmpty) 7 9).2.clock = (NewLoader diskEmpty).clock ∧
    (MoveTo (NewLoader diskEmpty) 7 9).2.disk = (NewLoader diskEmpty).disk :=
  moveTo_spec (NewLoader diskEmpty) 7 9

end World

namespace Gfx

/-- C6: `toViewPos` reports valid exactly when the window-relative X and Y
lie in `[0, 96)` and Z lies in `[0, 24)`, and on valid coordinates
`toWorldPos` inverts it. -/
theorem toViewPos_spec (v : View) (wx wy wz : Int) :
    ((toViewPos v wx wy wz).2.2.2 = true ↔
      (0 ≤ wx - (v.loaderX - 48) ∧ wx - (v.loaderX - 48) < 96 ∧
       0 ≤ wy - (v.loaderY - 48) ∧ wy - (v.loaderY - 48) < 96 ∧
       0 ≤ wz ∧ wz < 24)) ∧
    ((toViewPos v wx wy wz).2.2.2 = true →
      toWorldPos v (toViewPos v wx wy wz).1 (toViewPos v wx wy wz).2.1
        (toViewPos v wx wy wz).2.2.1 = (wx, wy, wz)) := by
  constructor
  · simp only [toViewPos, isValidViewPos]
    simp
    omega
  · intro _
    simp only [toViewPos, toWorldPos, Prod.mk.injEq]
    refine ⟨by omega, by omega, ?_⟩
    trivial

/-- Witness for C6 at a concrete view and coordinate. -/
theorem toViewPos_spec_witness :
    ((toViewPos vEmpty 10 20 3).2.2.2 = true ↔
      (0 ≤ (10 : Int) - (vEmpty.loaderX - 48) ∧ (10 : Int) - (vEmpty.loaderX - 48) < 96 ∧
       0 ≤ (20 : Int) - (vEmpty.loaderY - 48) ∧ (20 : Int) - (vEmpty.loaderY - 48) < 96 ∧
       0 ≤ (3 : Int) ∧ (3 : Int) < 24)) ∧
    ((toViewPos vEmpty 10 20 3).2.2.2 = true →
      toWorldPos vEmpty (toViewPos vEmpty 10 20 3).1 (toViewPos vEmpty 10 20 3).2.1
        (toViewPos vEmpty 10 20 3).2.2.1 = (10, 20, 3)) :=
  toViewPos_spec vEmpty 10 20 3

/-- C10: while pathfinding probes a move, if the context's start cell holds
no shape, `View.GetBlocker` returns `nil` for every target world
coordinate — every probed move appears unobstructed; no search runs and no
error is signalled. -/
theorem getBlocker_empty_start (v : View) (ctx : Ctx) (twx twy twz : Int)
    (h : (v.cells ctx.start.x ctx.start.y ctx.start.z).block = 0) :
    GetBlocker v ctx twx twy twz = none := by
  unfold GetBlocker
  rw [if_pos h]

/-- Witness for C10 at the empty window's pathfinding context. -/
theorem getBlocker_empty_start_witness :
    (vEmpty.cells ctx9.start.x ctx9.start.y ctx9.start.z).block = 0 ∧
    GetBlocker vEmpty ctx9 11 10 0 = none ∧
    GetBlocker vEmpty ctx9 45 3 9 = none :=
  ⟨rfl, getBlocker_empty_start vEmpty ctx9 11 10 0 rfl,
    getBlocker_empty_start vEmpty ctx9 45 3 9 rfl⟩

/-- C8: when both endpoints convert to valid window coordinates, `FindPath`
first runs the A* search with `usePathThrough = false` (registered
pass-through shapes treated as solid); the `usePathThrough = true` search
runs if and only if the first search finds no path, and in that case
`FindPath` returns the second search's result. -/
theorem findPath_two_pass (v : View) (sx sy sz ex ey ez : Int) (fly : Bool)
    (dSrc dDst : Int)
    (hs : (toViewPos v sx sy sz).2.2.2 = true)
    (he : (toViewPos v ex ey ez).2.2.2 = true) :
    (FindPath v sx sy sz ex ey ez fly dSrc dDst).2 =
      (if findPathRun v (fpCtx v sx sy sz ex ey ez fly dSrc dDst false) = none
       then [false, true] else [false]) ∧
    (FindPath v sx sy sz ex ey ez fly dSrc dDst).1 =
      (if findPathRun v (fpCtx v sx sy sz ex ey ez fly dSrc dDst false) = none
       then findPathRun v (fpCtx v sx sy sz ex ey ez fly dSrc dDst true)
       else findPathRun v (fpCtx v sx sy sz ex ey ez fly dSrc dDst false)) := by
  simp only [FindPath]
  rw [hs, he]
  cases hr : findPathRun v (fpCtx v sx sy sz ex ey ez fly dSrc dDst false) with
  | some steps => simp [hr]
  | none => simp [hr]

/-- Witness for C8 at a concrete in-window call. -/
theorem findPath_two_pass_witness :
    (toViewPos vEmpty 10 10 0).2.2.2 = true ∧
    (toViewPos vEmpty 20 10 0).2.2.2 = true ∧
    ((FindPath vEmpty 10 10 0 20 10 0 false 1 1).2 =
      (if findPathRun vEmpty (fpCtx vEmpty 10 10 0 20 10 0 false 1 1 false) = none
       then [false, true] else [false]) ∧
     (FindPath vEmpty 10 10 0 20 10 0 false 1 1).1 =
      (if findPathRun vEmpty (fpCtx vEmpty 10 10 0 20 10 0 false 1 1 false) = none
       then findPathRun vEmpty (fpCtx vEmpty 10 10 0 20 10 0 false 1 1 true)
       else findPathRun vEmpty (fpCtx vEmpty 10 10 0 20 10 0 false 1 1 false))) :=
  ⟨by decide, by decide,
   findPath_two_pass vEmpty 10 10 0 20 10 0 false 1 1 (by decide) (by decide)⟩

/-- C9 counterexample: in the first expansion of a concrete search on the
empty window (`ctx9`: start `(10,10,0)`, goal `(12,10,0)`, start box width
2, destination box width 1), the neighbor `(11,10,0)` is produced and is
assigned heuristic 4, whereas the Manhattan distance with each endpoint
offset by half its own box's width is 2 — the claim's formula disagrees
with the assigned value. -/
theorem heuristic_claim_counterexample :
    (⟨11, 10, 0⟩ : Cell) ∈ exp9.2 ∧
    (visitNeighbor ctx9 ctx9.start ⟨11, 10, 0⟩ exp9.1 []).1.h ⟨11, 10, 0⟩ = 4 ∧
    claimedHeuristic ctx9 ⟨11, 10, 0⟩ ctx9.endC = 2 ∧
    (visitNeighbor ctx9 ctx9.start ⟨11, 10, 0⟩ exp9.1 []).1.h ⟨11, 10, 0⟩ ≠
      claimedHeuristic ctx9 ⟨11, 10, 0⟩ ctx9.endC := by
  decide

/-- C9 (amended): the heuristic assigned to a neighbor on its first visit
during expansion is, per axis (x, y and z), the absolute value of the
goal-minus-neighbor difference with BOTH half-widths added to it —
`AbsInt (goal - neighbor + startBox.W/2 + endBox.W/2)` — not the distance
between the two box-center-offset endpoints. -/
theorem heuristic_assignment (ctx : Ctx) (current neighbor : Cell)
    (st : AState) (openList : List Cell)
    (h1 : st.closed neighbor = false) (h2 : st.visited neighbor = false) :
    (visitNeighbor ctx current neighbor st openList).1.h neighbor =
      assignedHeuristicFormula ctx neighbor ctx.endC := by
  unfold visitNeighbor
  have hcl : ¬(st.closed neighbor = true) := by simp [h1]
  rw [if_neg hcl]
  have hvs : (!st.visited neighbor) = true := by simp [h2]
  rw [if_pos hvs]
  simp only [eq_self_iff_true, if_true]
  simp only [heuristic, assignedHeuristicFormula, AbsInt]
  split_ifs <;> omega

/-- Witness for C9's amended theorem: the concrete first expansion above. -/
theorem heuristic_assignment_witness :
    st9.closed ⟨11, 10, 0⟩ = false ∧ st9.visited ⟨11, 10, 0⟩ = false ∧
    (visitNeighbor ctx9 ctx9.start ⟨11, 10, 0⟩ st9 []).1.h ⟨11, 10, 0⟩ =
      assignedHeuristicFormula ctx9 ⟨11, 10, 0⟩ ctx9.endC :=
  ⟨by decide, by decide,
   heuristic_assignment ctx9 ctx9.start ⟨11, 10, 0⟩ st9 [] (by decide) (by decide)⟩

end Gfx

end Isongn
